import Mathlib

/-!
Verification of the chart-generation pipeline of `backend/charts.py`
(Material Intelligence Agent).

The Python module is shallowly embedded:
* Python floats are modelled as exact rationals (`ℚ`); every numeric
  operation used by the module (division, subtraction, multiplication by
  100) is exact at the magnitudes involved.
* Python strings are Lean `String`s; `str.lower()` is `pyLower`
  (character-wise ASCII lowering) and the substring test
  `needle in hay` is `strIn`.
* A Python dict is modelled as an association list in insertion order
  (Python dicts iterate in insertion order, which is what
  `props.items()` exposes).
* A dict field that may be missing or explicitly `None` is a `PyField`:
  `absent` (key not present), `null` (key present, value `None`) or
  `val a`.  `d.get(key, default)` is `PyField.get`, returning
  `Option` where `Option.none` models the Python value `None`.
* Code paths that can raise are modelled in `Except String`; the error
  string names the Python exception class.
* `matplotlib` rendering is opaque: a chart value is modelled by the
  structured data the module hands to the renderer (labels, values,
  title, axis label, colour; radar traces, axis names and angles as
  fractions of a full turn).  The in-place list extension
  `values += values[:1]` performed by `create_radar_chart` is modelled
  by returning the post-call state of the input list alongside the
  chart.
-/

namespace MaterialCharts

/-- The inputs `parse_value` distinguishes: `None`, a string, or any
non-string value (both truthy and falsy non-strings take the same
early-return path, via `not text` or the `isinstance` check). -/
inductive PyVal where
  | none
  | str (s : String)
  | other
deriving DecidableEq

/-- Characters matched by the regex character class `[\d\.]` of
`parse_value`. -/
def isNumChar (c : Char) : Bool := c.isDigit || c == '.'

/-- `re.search(r"([\d\.]+)", text)`: the first maximal run of digit/dot
characters, or `none` when no such character occurs. -/
def firstRun : List Char → Option (List Char)
  | [] => Option.none
  | c :: rest =>
    if isNumChar c then Option.some (c :: rest.takeWhile isNumChar)
    else firstRun rest

/-- Value of a list of decimal digit characters. -/
def digitsVal (l : List Char) : ℕ :=
  l.foldl (fun a c => a * 10 + (c.toNat - 48)) 0

/-- Python `float(run)` restricted to strings of digits and dots (the
only strings the regex can produce): defined exactly when the run has
at least one digit and at most one dot; `Option.none` models a raised
`ValueError`. -/
def floatOfRun (run : List Char) : Option ℚ :=
  let intPart := run.takeWhile Char.isDigit
  match run.dropWhile Char.isDigit with
  | [] => if intPart.isEmpty then Option.none else Option.some ((digitsVal intPart : ℚ))
  | c :: frac =>
    if c == '.' && frac.all Char.isDigit then
      if intPart.isEmpty && frac.isEmpty then Option.none
      else Option.some ((digitsVal intPart : ℚ) + (digitsVal frac : ℚ) / ((10 : ℚ) ^ frac.length))
    else Option.none

/-- `parse_value` of `charts.py`: `None`/empty-string/non-string input
returns `0.0`; otherwise the first `[\d\.]+` run is fed to `float`,
with the `try/except ValueError` collapsing a failed parse to `0.0`. -/
def parse_value : PyVal → ℚ
  | PyVal.none => 0
  | PyVal.other => 0
  | PyVal.str s =>
    if s.data = [] then 0
    else
      match firstRun s.data with
      | Option.none => 0
      | Option.some run => (floatOfRun run).getD 0

/-- `parse_value` with the raising semantics made explicit: the only
operation in its body that can raise is `float`, and the surrounding
`try/except` catches that, so the result is always `Except.ok`. -/
def parse_valueE : PyVal → Except String ℚ
  | PyVal.none => Except.ok 0
  | PyVal.other => Except.ok 0
  | PyVal.str s =>
    if s.data = [] then Except.ok 0
    else
      match firstRun s.data with
      | Option.none => Except.ok 0
      | Option.some run =>
        match (match floatOfRun run with
               | Option.some q => Except.ok q
               | Option.none => Except.error "ValueError") with
        | Except.ok q => Except.ok q
        | Except.error (_ : String) => Except.ok 0

/-- `leadsWith needle hay`: `needle` is an initial segment of `hay`. -/
def leadsWith : List Char → List Char → Bool
  | [], _ => true
  | _ :: _, [] => false
  | a :: as, b :: bs => a == b && leadsWith as bs

/-- Occurrence of `needle` as a contiguous subsequence of `hay`. -/
def containsSeq (needle : List Char) : List Char → Bool
  | [] => needle.isEmpty
  | c :: rest => leadsWith needle (c :: rest) || containsSeq needle rest

/-- Python `s.lower()`, as a character list (ASCII lowering, which is
all the keyword tests exercise). -/
def pyLower (s : String) : List Char := s.data.map Char.toLower

/-- The Python substring test `needle in hay` against a lowered hay. -/
def strIn (needle : String) (hay : List Char) : Bool := containsSeq needle.data hay

/-- The label test of the extraction loops:
`any(kw in k.lower() for kw in kws)` with lowercase keyword literals. -/
def labelMatches (label : String) (kws : List String) : Bool :=
  kws.any fun kw => strIn kw (pyLower label)

/-- The common shape of the extraction loops of `generate_charts`:
iterate `props.items()` in insertion order and return the value of the
first label containing a keyword (the loop `break`s there). -/
def findMatch (props : List (String × String)) (kws : List String) : Option String :=
  match props with
  | [] => Option.none
  | (k, v) :: rest => if labelMatches k kws then Option.some v else findMatch rest kws

/-- Numeric property extraction: `val = 0`, then on the first matching
label `val = parse_value(v); break`. -/
def extractNum (props : List (String × String)) (kws : List String) : ℚ :=
  match findMatch props kws with
  | Option.some v => parse_value (PyVal.str v)
  | Option.none => 0

/-- The qualitative tier classification applied to the first
corrosion-labelled value (`if/elif` chain over `v.lower()`). -/
def classifyCorrosion (v : String) : ℚ :=
  let vl := pyLower v
  if strIn "excellent" vl then 95
  else if strIn "good" vl then 75
  else if strIn "fair" vl then 50
  else if strIn "poor" vl then 25
  else 50

/-- Corrosion score of a material: `cor_val = 50` default, overwritten
by the tier classification of the first corrosion-labelled value (the
loop `break`s after classifying; an unrecognised tier leaves 50). -/
def corrosionScore (props : List (String × String)) : ℚ :=
  match findMatch props ["corrosion"] with
  | Option.some v => classifyCorrosion v
  | Option.none => 50

/-- `max(vals) if vals else 1` of the `normalize` helper. -/
def pymax : List ℚ → ℚ
  | [] => 1
  | v :: vs => vs.foldl max v

/-- The `normalize` helper of `generate_charts`: rescale to 0–100,
directly or inverted, with the maximum replaced by 1 when the list is
empty or its maximum is 0. -/
def normalize (vals : List ℚ) (inverse : Bool) : List ℚ :=
  let m := pymax vals
  let max_v := if m = 0 then 1 else m
  if inverse then vals.map fun v => (1 - (v / max_v)) * 100
  else vals.map fun v => (v / max_v) * 100

/-- A dict field that may be missing or explicitly `None`. -/
inductive PyField (α : Type) where
  | absent
  | null
  | val (a : α)
deriving DecidableEq

/-- Python `d.get(key, default)`: the default replaces a missing key
only; a key bound to `None` yields `None` (modelled `Option.none`). -/
def PyField.get {α : Type} : PyField α → α → Option α
  | PyField.absent, d => Option.some d
  | PyField.null, _ => Option.none
  | PyField.val a, _ => Option.some a

/-- One entry of the `matches` list: `{name, properties}` where either
field may be missing or `None`; `properties` iterates in insertion
order. -/
structure Material where
  name : PyField String
  properties : PyField (List (String × String))
deriving DecidableEq

/-- The report-data object as consumed by `generate_charts` (its other
fields are not read by the chart pipeline). -/
structure ReportData where
  matches' : PyField (List Material)
deriving DecidableEq

/-- `m.get("name", "Unknown")`: a label that is `Option.none` models
the Python value `None`. -/
def pyName (m : Material) : Option String := m.name.get "Unknown"

/-- The properties mapping seen on the non-raising path:
`m.get("properties", {})` with a present-or-absent (not null) field. -/
def propsOf (m : Material) : List (String × String) :=
  (m.properties.get []).getD []

/-- The structured input `create_bar_chart` hands to the renderer. -/
structure BarChart where
  labels : List (Option String)
  values : List ℚ
  title : String
  ylabel : String
  color : String
deriving DecidableEq

/-- `create_bar_chart`: reads `data` into label and value lists and
renders; it never writes to `data`, so the post-call state of `data`
(second component) is unchanged. -/
def create_bar_chart (data : List (Option String × ℚ)) (title ylabel color : String) :
    BarChart × List (Option String × ℚ) :=
  (⟨data.map Prod.fst, data.map Prod.snd, title, ylabel, color⟩, data)

/-- `values += values[:1]` / `angles += angles[:1]`: close a polygonal
trace by repeating its first point. -/
def closeList {α : Type} (l : List α) : List α := l ++ l.take 1

/-- The structured input `create_radar_chart` hands to the renderer;
`angles` are fractions of a full turn (`n / N` for the axis at angle
`n/N * 2π`), closed like the traces. -/
structure RadarChart where
  traces : List (Option String × List ℚ)
  axes : List String
  angles : List ℚ
deriving DecidableEq

/-- `create_radar_chart`: for each material it runs
`values = material['values']; values += values[:1]` — an in-place
extension of the caller's list — and plots the closed trace.  The
second component is the post-call state of the input, which has each
values list extended by its own first element. -/
def create_radar_chart (materials : List (Option String × List ℚ)) (attrs : List String) :
    RadarChart × List (Option String × List ℚ) :=
  let N := attrs.length
  let angles := closeList ((List.range N).map fun n => (n : ℚ) / (N : ℚ))
  (⟨materials.map (fun m => (m.1, closeList m.2)), attrs, angles⟩,
   materials.map fun m => (m.1, closeList m.2))

/-- The dictionary `generate_charts` returns: an absent key is
`Option.none`. -/
structure ChartSet where
  tensile : Option BarChart
  density : Option BarChart
  radar : Option RadarChart
deriving DecidableEq

/-- The keyword sets of the extraction loops. -/
def tensileKws : List String := ["tensile", "strength"]

def densityKws : List String := ["density"]

def costKws : List String := ["cost"]

def tempKws : List String := ["temp", "melting"]

/-- The radar axis names. -/
def radarAxes : List String := ["Strength", "Density", "Cost", "Corrosion", "Temp"]

/-- The per-material raw values collected by the radar loop of
`generate_charts`. -/
structure Row where
  name : Option String
  strength : ℚ
  density : ℚ
  cost : ℚ
  corr : ℚ
  temp : ℚ
deriving DecidableEq

/-- One iteration of the radar extraction loop. -/
def rowOf (m : Material) (props : List (String × String)) : Row :=
  ⟨pyName m, extractNum props tensileKws, extractNum props densityKws,
   extractNum props costKws, corrosionScore props, extractNum props tempKws⟩

/-- A loop over `matches` that reads `m.get("properties", {})` and then
iterates it: a `None` value for `properties` raises `AttributeError`
at `props.items()`. -/
def mapProps {α : Type} (f : Material → List (String × String) → α) :
    List Material → Except String (List α)
  | [] => Except.ok []
  | m :: rest =>
    match m.properties.get [] with
    | Option.none => Except.error "AttributeError"
    | Option.some props =>
      match mapProps f rest with
      | Except.ok l => Except.ok (f m props :: l)
      | Except.error e => Except.error e

/-- The tensile data rows on the non-raising path. -/
def tensileData (ms : List Material) : List (Option String × ℚ) :=
  ms.map fun m => (pyName m, extractNum (propsOf m) tensileKws)

/-- The density data rows on the non-raising path. -/
def densityData (ms : List Material) : List (Option String × ℚ) :=
  ms.map fun m => (pyName m, extractNum (propsOf m) densityKws)

/-- The radar raw-value rows on the non-raising path. -/
def rowsOf (ms : List Material) : List Row :=
  ms.map fun m => rowOf m (propsOf m)

/-- The `radar_materials` list rebuilt per material from the normalized
columns (`norm_data[attr][i]`); Corrosion is taken raw.  All columns
have length `ms.length`, so the `getD` defaults are never used. -/
def radarMaterials (ms : List Material) : List (Option String × List ℚ) :=
  (List.range ms.length).map fun i =>
    (((rowsOf ms).map Row.name).getD i Option.none,
     [(normalize ((rowsOf ms).map Row.strength) false).getD i 0,
      (normalize ((rowsOf ms).map Row.density) true).getD i 0,
      (normalize ((rowsOf ms).map Row.cost) true).getD i 0,
      ((rowsOf ms).map Row.corr).getD i 0,
      (normalize ((rowsOf ms).map Row.temp) false).getD i 0])

/-- The chart dictionary produced for a non-empty `matches` list on the
non-raising path: a bar chart is stored only when some value is
strictly positive; the radar chart is stored when `radar_materials` is
non-empty. -/
def chartsPure (ms : List Material) : ChartSet :=
  ⟨if (tensileData ms).any (fun d => decide (0 < d.2)) then
      Option.some (create_bar_chart (tensileData ms)
        "Tensile Strength Comparison" "Strength (MPa)" "#34495e").1
    else Option.none,
   if (densityData ms).any (fun d => decide (0 < d.2)) then
      Option.some (create_bar_chart (densityData ms)
        "Density Comparison" "Density (g/cm3)" "#e67e22").1
    else Option.none,
   if (radarMaterials ms).isEmpty then Option.none
   else Option.some (create_radar_chart (radarMaterials ms) radarAxes).1⟩

/-- `generate_charts` of `charts.py`.  `report_data.get("matches", [])`
followed by the falsiness test collapses an absent, `None` or empty
`matches` to the empty dictionary; otherwise the three extraction
loops run (each can raise `AttributeError` on a `None` properties
field) and the charts are assembled. -/
def generate_charts (rd : ReportData) : Except String ChartSet :=
  match rd.matches'.get [] with
  | Option.none => Except.ok ⟨Option.none, Option.none, Option.none⟩
  | Option.some [] => Except.ok ⟨Option.none, Option.none, Option.none⟩
  | Option.some (m0 :: rest) =>
    match mapProps (fun m props => (pyName m, extractNum props tensileKws)) (m0 :: rest) with
    | Except.error e => Except.error e
    | Except.ok tensile_data =>
      match mapProps (fun m props => (pyName m, extractNum props densityKws)) (m0 :: rest) with
      | Except.error e => Except.error e
      | Except.ok density_data =>
        match mapProps rowOf (m0 :: rest) with
        | Except.error e => Except.error e
        | Except.ok rows =>
          let sN := normalize (rows.map Row.strength) false
          let dN := normalize (rows.map Row.density) true
          let cN := normalize (rows.map Row.cost) true
          let corrs := rows.map Row.corr
          let tN := normalize (rows.map Row.temp) false
          let radar_materials := (List.range (m0 :: rest).length).map fun i =>
            ((rows.map Row.name).getD i Option.none,
             [sN.getD i 0, dN.getD i 0, cN.getD i 0, corrs.getD i 0, tN.getD i 0])
          Except.ok
            ⟨if tensile_data.any (fun d => decide (0 < d.2)) then
                Option.some (create_bar_chart tensile_data
                  "Tensile Strength Comparison" "Strength (MPa)" "#34495e").1
              else Option.none,
             if density_data.any (fun d => decide (0 < d.2)) then
                Option.some (create_bar_chart density_data
                  "Density Comparison" "Density (g/cm3)" "#e67e22").1
              else Option.none,
             if radar_materials.isEmpty then Option.none
             else Option.some (create_radar_chart radar_materials radarAxes).1⟩

/-- The end-to-end example input of the spec (section 8). -/
def sampleMatches : List Material :=
  [⟨PyField.val "AISI 304",
    PyField.val [("Tensile Strength", "505 MPa"), ("Density", "8.0 g/cm3")]⟩,
   ⟨PyField.val "Al 6061",
    PyField.val [("Tensile Strength", "310 MPa"), ("Density", "2.7 g/cm3")]⟩]

/-! ### Facts about `pymax` and `normalize` -/

lemma self_le_foldl_max : ∀ (xs : List ℚ) (a : ℚ), a ≤ xs.foldl max a
  | [], a => le_refl a
  | y :: ys, a => le_trans (le_max_left a y) (self_le_foldl_max ys (max a y))

lemma mem_le_foldl_max : ∀ (xs : List ℚ) (a v : ℚ), v ∈ xs → v ≤ xs.foldl max a := by
  intro xs
  induction xs with
  | nil => intro a v hv; cases hv
  | cons y ys ih =>
    intro a v hv
    rcases List.mem_cons.mp hv with rfl | h
    · exact le_trans (le_max_right a v) (self_le_foldl_max ys (max a v))
    · exact ih (max a y) v h

/-- Every element is bounded by `pymax`. -/
lemma le_pymax (vals : List ℚ) (v : ℚ) (hv : v ∈ vals) : v ≤ pymax vals := by
  cases vals with
  | nil => cases hv
  | cons x xs =>
    show v ≤ xs.foldl max x
    rcases List.mem_cons.mp hv with rfl | h
    · exact self_le_foldl_max xs v
    · exact mem_le_foldl_max xs x v h

/-- `pymax` of a non-empty list is one of its elements. -/
lemma foldl_max_mem : ∀ (xs : List ℚ) (a : ℚ), xs.foldl max a = a ∨ xs.foldl max a ∈ xs
  | [], _ => Or.inl rfl
  | y :: ys, a => by
    rcases foldl_max_mem ys (max a y) with h | h
    · rcases max_choice a y with h2 | h2
      · exact Or.inl (by rw [List.foldl_cons, h, h2])
      · refine Or.inr ?_
        rw [List.foldl_cons, h, h2]
        exact List.mem_cons_self y ys
    · refine Or.inr (List.mem_cons_of_mem y ?_)
      rw [List.foldl_cons]
      exact h

lemma pymax_mem (vals : List ℚ) (h : vals ≠ []) : pymax vals ∈ vals := by
  cases vals with
  | nil => exact absurd rfl h
  | cons x xs =>
    show xs.foldl max x ∈ x :: xs
    rcases foldl_max_mem xs x with h2 | h2
    · rw [h2]; exact List.mem_cons_self x xs
    · exact List.mem_cons_of_mem x h2

lemma pymax_nonneg (vals : List ℚ) (h : ∀ v ∈ vals, 0 ≤ v) : 0 ≤ pymax vals := by
  cases vals with
  | nil => norm_num [pymax]
  | cons x xs =>
    exact le_trans (h x (List.mem_cons_self x xs))
      (le_pymax (x :: xs) x (List.mem_cons_self x xs))

/-- The effective divisor of `normalize` is positive for non-negative
input. -/
lemma maxv_pos (vals : List ℚ) (h : ∀ v ∈ vals, 0 ≤ v) :
    0 < (if pymax vals = 0 then 1 else pymax vals) := by
  by_cases h0 : pymax vals = 0
  · simp [h0]
  · simp only [h0, if_false]
    exact lt_of_le_of_ne (pymax_nonneg vals h) (Ne.symm h0)

lemma le_maxv (vals : List ℚ) (v : ℚ) (hv : v ∈ vals) :
    v ≤ (if pymax vals = 0 then 1 else pymax vals) := by
  by_cases h0 : pymax vals = 0
  · simp only [h0, if_true]
    calc v ≤ pymax vals := le_pymax vals v hv
      _ = 0 := h0
      _ ≤ 1 := by norm_num
  · simp only [h0, if_false]
    exact le_pymax vals v hv

lemma normalize_length (vals : List ℚ) (inv : Bool) :
    (normalize vals inv).length = vals.length := by
  unfold normalize
  cases inv <;> simp

/-- Range invariant: all normalized entries lie in `[0, 100]` for
non-negative input, in both directions. -/
lemma normalize_bounds (vals : List ℚ) (inv : Bool) (h : ∀ v ∈ vals, 0 ≤ v) :
    ∀ x ∈ normalize vals inv, 0 ≤ x ∧ x ≤ 100 := by
  intro x hx
  have hMpos := maxv_pos vals h
  unfold normalize at hx
  cases inv with
  | false =>
    simp only [Bool.false_eq_true, if_false, List.mem_map] at hx
    obtain ⟨v, hv, rfl⟩ := hx
    have h1 : 0 ≤ v / (if pymax vals = 0 then 1 else pymax vals) :=
      div_nonneg (h v hv) (le_of_lt hMpos)
    have h2 : v / (if pymax vals = 0 then 1 else pymax vals) ≤ 1 :=
      (div_le_one hMpos).mpr (le_maxv vals v hv)
    constructor
    · exact mul_nonneg h1 (by norm_num)
    · calc v / (if pymax vals = 0 then 1 else pymax vals) * 100 ≤ 1 * 100 :=
            mul_le_mul_of_nonneg_right h2 (by norm_num)
        _ = 100 := by norm_num
  | true =>
    simp only [if_true, List.mem_map] at hx
    obtain ⟨v, hv, rfl⟩ := hx
    have h1 : 0 ≤ v / (if pymax vals = 0 then 1 else pymax vals) :=
      div_nonneg (h v hv) (le_of_lt hMpos)
    have h2 : v / (if pymax vals = 0 then 1 else pymax vals) ≤ 1 :=
      (div_le_one hMpos).mpr (le_maxv vals v hv)
    constructor
    · exact mul_nonneg (by linarith) (by norm_num)
    · calc (1 - v / (if pymax vals = 0 then 1 else pymax vals)) * 100 ≤ 1 * 100 := by
            apply mul_le_mul_of_nonneg_right _ (by norm_num)
            linarith
        _ = 100 := by norm_num

/-! ### Claims about `normalize` (C1, C2) -/

/-- C1 (corrected on the inverse direction): the claim states that an
all-zero raw vector normalizes to all zeros in both directions; in the
inverse direction the code computes `(1 - 0/1) * 100 = 100` for every
entry, so `normalize [0,0,0]` with `inverse=True` is `[100,100,100]`,
not `[0,0,0]`. -/
theorem C1_counterexample : normalize [0, 0, 0] true ≠ [0, 0, 0] := by
  norm_num [normalize, pymax]

/-- C1 (amended): for an attribute whose raw values are all zero,
normalization is total (no NaN, no division-by-zero error: the zero
maximum is replaced by 1) and yields the all-zero vector in the direct
direction but the all-100 vector in the inverse direction; in
particular `normalize [0,0,0]` is `[0,0,0]` directly and
`[100,100,100]` inversely. -/
theorem C1_normalize_all_zero (vals : List ℚ) (h : ∀ v ∈ vals, v = 0) :
    normalize vals false = vals.map (fun _ => (0 : ℚ)) ∧
    normalize vals true = vals.map (fun _ => (100 : ℚ)) := by
  unfold normalize
  constructor
  · simp only [Bool.false_eq_true, if_false]
    refine List.map_congr_left ?_
    intro v hv
    rw [h v hv]
    simp
  · simp only [if_true]
    refine List.map_congr_left ?_
    intro v hv
    rw [h v hv]
    simp

/-- C1 witness: the amended statement evaluated at `[0, 0, 0]`. -/
theorem C1_witness :
    normalize [0, 0, 0] false = [0, 0, 0] ∧
    normalize [0, 0, 0] true = [100, 100, 100] := by
  have h := C1_normalize_all_zero [0, 0, 0] (by decide)
  exact ⟨h.1.trans (by decide), h.2.trans (by decide)⟩

/-- C2 (confirmed): `normalize` keeps the length, lands in `[0, 100]`
for non-negative input, divides by the maximum (1 for an empty or
all-zero list; the maximum is an element when the list is non-empty),
and the round-trip examples `[50, 100] ↦ [50, 100]` (direct) and
`[50, 100] ↦ [50, 0]` (inverse) hold. -/
theorem C2_normalize_spec (vals : List ℚ) (inv : Bool) (h : ∀ v ∈ vals, 0 ≤ v) :
    (normalize vals inv).length = vals.length ∧
    (∀ x ∈ normalize vals inv, 0 ≤ x ∧ x ≤ 100) ∧
    (normalize vals inv =
      if inv then vals.map fun v => (1 - (v / (if pymax vals = 0 then 1 else pymax vals))) * 100
      else vals.map fun v => (v / (if pymax vals = 0 then 1 else pymax vals)) * 100) ∧
    (∀ v ∈ vals, v ≤ pymax vals) ∧
    (vals ≠ [] → pymax vals ∈ vals) ∧
    pymax [] = 1 ∧
    normalize [50, 100] false = [50, 100] ∧
    normalize [50, 100] true = [50, 0] := by
  refine ⟨normalize_length vals inv, normalize_bounds vals inv h, by unfold normalize; rfl,
    fun v hv => le_pymax vals v hv, pymax_mem vals, rfl, ?_, ?_⟩
  · norm_num [normalize, pymax]
  · norm_num [normalize, pymax]

/-- C2 witness: the specification evaluated at `[50, 100]`. -/
theorem C2_witness :
    (normalize [50, 100] false).length = 2 ∧ normalize [50, 100] false = [50, 100] := by
  have h := C2_normalize_spec [50, 100] false (by decide)
  exact ⟨h.1, h.2.2.2.2.2.2.1⟩

/-! ### Facts about `parse_value` -/

lemma takeWhile_all_append (p : Char → Bool) (l1 l2 : List Char)
    (h : ∀ c ∈ l1, p c = true) :
    (l1 ++ l2).takeWhile p = l1 ++ l2.takeWhile p := by
  induction l1 with
  | nil => simp
  | cons c cs ih =>
    have hc : p c = true := h c (List.mem_cons_self c cs)
    simp [List.takeWhile_cons, hc, ih fun x hx => h x (List.mem_cons_of_mem c hx)]

lemma takeWhile_head_false (p : Char → Bool) (l : List Char)
    (h : ∀ c ∈ l.take 1, p c = false) :
    l.takeWhile p = [] := by
  cases l with
  | nil => rfl
  | cons c cs =>
    have hc : p c = false := h c (by simp)
    simp [List.takeWhile_cons, hc]

lemma dropWhile_head_false (p : Char → Bool) (l : List Char)
    (h : ∀ c ∈ l.take 1, p c = false) :
    l.dropWhile p = l := by
  cases l with
  | nil => rfl
  | cons c cs =>
    have hc : p c = false := h c (by simp)
    simp [List.dropWhile_cons, hc]

/-- The regex search finds exactly the first maximal `[\d\.]+` run. -/
lemma firstRun_spec (pre run post : List Char)
    (h1 : ∀ c ∈ pre, isNumChar c = false) (h2 : run ≠ [])
    (h3 : ∀ c ∈ run, isNumChar c = true)
    (h4 : ∀ c ∈ post.take 1, isNumChar c = false) :
    firstRun (pre ++ run ++ post) = Option.some run := by
  induction pre with
  | nil =>
    cases run with
    | nil => exact absurd rfl h2
    | cons c cs =>
      have hc : isNumChar c = true := h3 c (List.mem_cons_self c cs)
      show firstRun (c :: (cs ++ post)) = _
      rw [firstRun, if_pos hc,
        takeWhile_all_append isNumChar cs post fun x hx => h3 x (List.mem_cons_of_mem c hx),
        takeWhile_head_false isNumChar post h4, List.append_nil]
  | cons c cs ih =>
    have hc : isNumChar c = false := h1 c (List.mem_cons_self c cs)
    show firstRun (c :: (cs ++ run ++ post)) = _
    rw [firstRun, if_neg (by simp [hc])]
    exact ih fun x hx => h1 x (List.mem_cons_of_mem c hx)

lemma firstRun_subset (s : List Char) :
    ∀ run, firstRun s = Option.some run → ∀ c ∈ run, c ∈ s := by
  induction s with
  | nil => intro run h; cases h
  | cons c cs ih =>
    intro run h x hx
    rw [firstRun] at h
    by_cases hc : isNumChar c = true
    · rw [if_pos hc] at h
      cases h
      rcases List.mem_cons.mp hx with rfl | hx2
      · exact List.mem_cons_self x cs
      · exact List.mem_cons_of_mem c ((List.takeWhile_sublist isNumChar).mem hx2)
    · rw [if_neg hc] at h
      exact List.mem_cons_of_mem c (ih run h x hx)

lemma firstRun_numChar (s : List Char) :
    ∀ run, firstRun s = Option.some run → ∀ c ∈ run, isNumChar c = true := by
  induction s with
  | nil => intro run h; cases h
  | cons c cs ih =>
    intro run h x hx
    rw [firstRun] at h
    by_cases hc : isNumChar c = true
    · rw [if_pos hc] at h
      cases h
      rcases List.mem_cons.mp hx with rfl | hx2
      · exact hc
      · exact List.mem_takeWhile_imp hx2
    · rw [if_neg hc] at h
      exact ih run h x hx

lemma firstRun_ne_nil (s : List Char) :
    ∀ run, firstRun s = Option.some run → run ≠ [] := by
  induction s with
  | nil => intro run h; cases h
  | cons c cs ih =>
    intro run h
    rw [firstRun] at h
    by_cases hc : isNumChar c = true
    · rw [if_pos hc] at h
      cases h
      exact List.cons_ne_nil c _
    · rw [if_neg hc] at h
      exact ih run h

lemma dropWhile_head_not (p : Char → Bool) :
    ∀ (l : List Char) (c : Char) (cs : List Char), l.dropWhile p = c :: cs → p c = false := by
  intro l
  induction l with
  | nil => intro c cs h; cases h
  | cons x xs ih =>
    intro c cs h
    rw [List.dropWhile_cons] at h
    by_cases hx : p x = true
    · rw [if_pos hx] at h
      exact ih c cs h
    · rw [if_neg hx] at h
      cases h
      exact Bool.eq_false_iff.mpr hx

lemma numChar_not_digit {c : Char} (hn : isNumChar c = true) (hd : c.isDigit = false) :
    c = '.' := by
  unfold isNumChar at hn
  rw [hd] at hn
  simpa using hn

lemma digit_ne_dot {c : Char} (h : c.isDigit = true) : (c == '.') = false := by
  rcases Bool.eq_false_or_eq_true (c == '.') with ht | hf
  · have hc : c = '.' := by simpa using ht
    subst hc
    exact absurd h (by decide)
  · exact hf

/-- `float` succeeds on a digit/dot run exactly when the run contains
at least one digit and at most one dot. -/
lemma floatOfRun_isSome (run : List Char) (hall : ∀ c ∈ run, isNumChar c = true) :
    (floatOfRun run).isSome = true ↔
      (run.any Char.isDigit = true ∧ (run.filter fun c => c == '.').length ≤ 1) := by
  have hsplit : run.takeWhile Char.isDigit ++ run.dropWhile Char.isDigit = run :=
    List.takeWhile_append_dropWhile Char.isDigit run
  have hipdig : ∀ c ∈ run.takeWhile Char.isDigit, c.isDigit = true :=
    fun c hc => List.mem_takeWhile_imp hc
  cases hd : run.dropWhile Char.isDigit with
  | nil =>
    rw [hd, List.append_nil] at hsplit
    have hdig : ∀ c ∈ run, c.isDigit = true := by
      intro c hc
      rw [← hsplit] at hc
      exact hipdig c hc
    have hlhs : floatOfRun run =
        if (run.takeWhile Char.isDigit).isEmpty then Option.none
        else Option.some ((digitsVal (run.takeWhile Char.isDigit) : ℚ)) := by
      simp only [floatOfRun, hd]
    have hfd : (run.filter fun c => c == '.') = [] := by
      refine List.filter_eq_nil_iff.mpr ?_
      intro c hc
      simp [digit_ne_dot (hdig c hc)]
    rw [hlhs, hsplit, hfd]
    cases run with
    | nil => simp
    | cons c cs =>
      have := hdig c (List.mem_cons_self c cs)
      simp [List.any_cons, this]
  | cons hc frac =>
    have hmemrest : ∀ c ∈ hc :: frac, c ∈ run := by
      intro c hcm
      rw [← hsplit, hd]
      exact List.mem_append_right _ hcm
    have hhc : hc.isDigit = false := dropWhile_head_not Char.isDigit run hc frac hd
    have hcdot : hc = '.' :=
      numChar_not_digit (hall hc (hmemrest hc (List.mem_cons_self hc frac))) hhc
    subst hcdot
    have hfracnum : ∀ c ∈ frac, isNumChar c = true :=
      fun c hcm => hall c (hmemrest c (List.mem_cons_of_mem _ hcm))
    have hlhs : floatOfRun run =
        if frac.all Char.isDigit then
          if (run.takeWhile Char.isDigit).isEmpty && frac.isEmpty then Option.none
          else Option.some ((digitsVal (run.takeWhile Char.isDigit) : ℚ) +
            (digitsVal frac : ℚ) / ((10 : ℚ) ^ frac.length))
        else Option.none := by
      simp only [floatOfRun, hd, beq_self_eq_true, Bool.true_and]
    have hipfil : (run.takeWhile Char.isDigit).filter (fun c => c == '.') = [] := by
      refine List.filter_eq_nil_iff.mpr ?_
      intro c hcm
      simp [digit_ne_dot (hipdig c hcm)]
    have hcount : (run.filter fun c => c == '.') =
        '.' :: frac.filter (fun c => c == '.') := by
      conv_lhs => rw [← hsplit, hd]
      rw [List.filter_append, hipfil, List.nil_append]
      simp [List.filter_cons]
    have hfraciff : frac.all Char.isDigit = true ↔
        frac.filter (fun c => c == '.') = [] := by
      rw [List.all_eq_true, List.filter_eq_nil_iff]
      constructor
      · intro h c hcm
        simp [digit_ne_dot (h c hcm)]
      · intro h c hcm
        have h1 := hfracnum c hcm
        have h2 := h c hcm
        unfold isNumChar at h1
        rcases Bool.eq_false_or_eq_true c.isDigit with ht | hf
        · exact ht
        · rw [hf] at h1
          simp at h1
          simp [h1] at h2
    have hanyrun : run.any Char.isDigit =
        ((run.takeWhile Char.isDigit).any Char.isDigit || frac.any Char.isDigit) := by
      conv_lhs => rw [← hsplit, hd]
      rw [List.any_append, List.any_cons]
      simp [show ('.' : Char).isDigit = false from by decide]
    have hipany : (run.takeWhile Char.isDigit).any Char.isDigit =
        !(run.takeWhile Char.isDigit).isEmpty := by
      cases hip : run.takeWhile Char.isDigit with
      | nil => simp
      | cons c cs =>
        have : c.isDigit = true := by
          have := hipdig c (by rw [hip]; exact List.mem_cons_self c cs)
          exact this
        simp [List.any_cons, this]
    rw [hlhs, hcount, hanyrun, hipany]
    by_cases hfa : frac.all Char.isDigit = true
    · have hfil : frac.filter (fun c => c == '.') = [] := hfraciff.mp hfa
      have hfany : frac.any Char.isDigit = !frac.isEmpty := by
        cases hfr : frac with
        | nil => simp
        | cons c cs =>
          have : c.isDigit = true := by
            have := List.all_eq_true.mp hfa c (by rw [hfr]; exact List.mem_cons_self c cs)
            exact this
          simp [List.any_cons, this]
      rw [hfa, hfil, hfany, if_pos rfl]
      cases hie : (run.takeWhile Char.isDigit).isEmpty <;>
        cases hfe : frac.isEmpty <;> simp [hie, hfe]
    · have hfa2 : frac.all Char.isDigit = false := Bool.eq_false_iff.mpr hfa
      have hfil : frac.filter (fun c => c == '.') ≠ [] := by
        intro hcontra
        exact hfa (hfraciff.mpr hcontra)
      rw [hfa2, if_neg (by simp)]
      simp only [Option.isSome_none, Bool.false_eq_true, false_iff, not_and]
      intro _
      have h1 : 1 ≤ (frac.filter fun c => c == '.').length := by
        cases hfl : frac.filter (fun c => c == '.') with
        | nil => exact absurd hfl hfil
        | cons a as => simp
      simp only [List.length_cons]
      omega

/-- No-digit strings parse to 0: the regex either finds nothing or a
dot-only run, and `float` fails on dot-only runs. -/
lemma parse_value_no_digit (s : String) (h : ∀ c ∈ s.data, c.isDigit = false) :
    parse_value (PyVal.str s) = 0 := by
  simp only [parse_value]
  by_cases hs : s.data = []
  · simp [hs]
  · rw [if_neg hs]
    cases hfr : firstRun s.data with
    | none => rfl
    | some run =>
      have hnum := firstRun_numChar s.data run hfr
      have hsub := firstRun_subset s.data run hfr
      have hnodig : run.any Char.isDigit = false := by
        rcases Bool.eq_false_or_eq_true (run.any Char.isDigit) with ht | hf
        · rcases List.any_eq_true.mp ht with ⟨c, hcm, hcd⟩
          exact absurd hcd (by simp [h c (hsub c hcm)])
        · exact hf
      have : (floatOfRun run).isSome = false := by
        rcases Bool.eq_false_or_eq_true (floatOfRun run).isSome with ht | hf
        · have := (floatOfRun_isSome run hnum).mp ht
          rw [hnodig] at this
          simpa using this.1
        · exact hf
      cases hfo : floatOfRun run with
      | none => simp [hfo]
      | some q => rw [hfo] at this; simp at this

/-! ### Claims about `parse_value` (C5, C6) -/

/-- C5 (corrected): the claim predicts that any string containing a
numeric substring parses to that number, but the regex `[\d\.]+` also
matches dot-only runs: in `"approx. 450 MPa"` the first match is the
lone dot of `"approx."`, `float(".")` raises, and the result is `0.0`,
not `450.0`. -/
theorem C5_counterexample :
    parse_value (PyVal.str "approx. 450 MPa") = 0 ∧
    parse_value (PyVal.str "approx. 450 MPa") ≠ 450 := by
  constructor
  · decide
  · decide

/-- C5 (amended): `parse_value` scans for the first maximal run of
digit-OR-DOT characters and returns `float` of that run when the run
has at least one digit and at most one dot, and `0.0` otherwise —
even when a later run of the string is numeric; every string with no
digits returns `0.0`; `"450 MPa"` gives `450.0` and `"N/A"` gives
`0.0`. -/
theorem C5_parse_value_runs :
    (∀ (s : String) (pre run post : List Char), s.data = pre ++ run ++ post →
      (∀ c ∈ pre, isNumChar c = false) → run ≠ [] →
      (∀ c ∈ run, isNumChar c = true) → (∀ c ∈ post.take 1, isNumChar c = false) →
      parse_value (PyVal.str s) = (floatOfRun run).getD 0) ∧
    (∀ run : List Char, (∀ c ∈ run, isNumChar c = true) →
      ((floatOfRun run).isSome = true ↔
        run.any Char.isDigit = true ∧ (run.filter fun c => c == '.').length ≤ 1)) ∧
    (∀ s : String, (∀ c ∈ s.data, c.isDigit = false) → parse_value (PyVal.str s) = 0) ∧
    parse_value (PyVal.str "450 MPa") = 450 ∧
    parse_value (PyVal.str "N/A") = 0 := by
  refine ⟨?_, floatOfRun_isSome, parse_value_no_digit, by decide, by decide⟩
  intro s pre run post hdec h1 h2 h3 h4
  simp only [parse_value]
  rw [hdec, if_neg (by
    intro hcontra
    rcases List.append_eq_nil.mp hcontra with ⟨hpr, _⟩
    rcases List.append_eq_nil.mp hpr with ⟨_, hrun⟩
    exact h2 hrun)]
  rw [firstRun_spec pre run post h1 h2 h3 h4]

/-- C5 witness: the run decomposition evaluated at `"450 MPa"`. -/
theorem C5_witness :
    parse_value (PyVal.str "450 MPa") = (floatOfRun ['4', '5', '0']).getD 0 :=
  C5_parse_value_runs.1 "450 MPa" [] ['4', '5', '0'] [' ', 'M', 'P', 'a']
    (by decide) (by decide) (by decide) (by decide) (by decide)

/-- C6 (confirmed): `parse_value` is total — `None`, empty, and
non-string inputs return `0.0` through the guard, and on strings the
only raising operation (`float`) sits inside `try/except`, so the
explicitly-raising model always returns `ok` with the same value. -/
theorem C6_parse_value_total :
    (∀ v : PyVal, parse_valueE v = Except.ok (parse_value v)) ∧
    parse_value PyVal.none = 0 ∧
    parse_value (PyVal.str "") = 0 ∧
    parse_value PyVal.other = 0 := by
  refine ⟨?_, rfl, by decide, rfl⟩
  intro v
  cases v with
  | none => rfl
  | other => rfl
  | str s =>
    simp only [parse_value, parse_valueE]
    by_cases hs : s.data = []
    · simp [hs]
    · rw [if_neg hs, if_neg hs]
      cases hfr : firstRun s.data with
      | none => simp [hfr]
      | some run =>
        cases hfo : floatOfRun run with
        | none => simp [hfr, hfo]
        | some q => simp [hfr, hfo]

/-! ### Facts about the extraction loops -/

/-- Skipping non-matching labels: the loop returns the value of the
first matching label. -/
lemma findMatch_append (kws : List String) :
    ∀ (pre : List (String × String)) (k v : String) (post : List (String × String)),
      (∀ p ∈ pre, labelMatches p.1 kws = false) → labelMatches k kws = true →
      findMatch (pre ++ (k, v) :: post) kws = Option.some v := by
  intro pre
  induction pre with
  | nil =>
    intro k v post _ h2
    simp [findMatch, h2]
  | cons p ps ih =>
    intro k v post h1 h2
    obtain ⟨pk, pv⟩ := p
    have hp : labelMatches pk kws = false := h1 (pk, pv) (List.mem_cons_self _ _)
    show findMatch ((pk, pv) :: (ps ++ (k, v) :: post)) kws = _
    simp only [findMatch]
    rw [if_neg (by simp [hp])]
    exact ih k v post (fun q hq => h1 q (List.mem_cons_of_mem _ hq)) h2

lemma findMatch_none (kws : List String) :
    ∀ props : List (String × String),
      (∀ p ∈ props, labelMatches p.1 kws = false) → findMatch props kws = Option.none := by
  intro props
  induction props with
  | nil => intro _; rfl
  | cons p ps ih =>
    intro h1
    obtain ⟨pk, pv⟩ := p
    have hp : labelMatches pk kws = false := h1 (pk, pv) (List.mem_cons_self _ _)
    simp only [findMatch]
    rw [if_neg (by simp [hp])]
    exact ih fun q hq => h1 q (List.mem_cons_of_mem _ hq)

/-! ### Claims about the property extractor (C7) and the qualitative
mapper tie-breaking (C10) -/

/-- C7 (confirmed): the extraction loops walk the property mapping in
insertion order, return `parse_value` of the value of the first label
containing any keyword case-insensitively (earlier non-matching
entries are skipped, later entries are ignored), and yield 0.0 when no
label matches. -/
theorem C7_property_extractor :
    (∀ (kws : List String) (pre : List (String × String)) (k v : String)
        (post : List (String × String)),
      (∀ p ∈ pre, labelMatches p.1 kws = false) → labelMatches k kws = true →
      extractNum (pre ++ (k, v) :: post) kws = parse_value (PyVal.str v)) ∧
    (∀ (kws : List String) (props : List (String × String)),
      (∀ p ∈ props, labelMatches p.1 kws = false) → extractNum props kws = 0) := by
  constructor
  · intro kws pre k v post h1 h2
    simp [extractNum, findMatch_append kws pre k v post h1 h2]
  · intro kws props h1
    simp [extractNum, findMatch_none kws props h1]

/-- C7 witness: the spec example — `Density` first in insertion order
does not match the tensile keywords, so the `Tensile Strength` entry
is the first match. -/
theorem C7_witness :
    extractNum ([("Density", "7.8 g/cm3")] ++ ("Tensile Strength", "500 MPa") :: [])
        tensileKws = parse_value (PyVal.str "500 MPa") :=
  C7_property_extractor.1 tensileKws [("Density", "7.8 g/cm3")] "Tensile Strength" "500 MPa" []
    (by decide) (by decide)

/-- C10 (confirmed): the tier tests run in the fixed `if/elif` order
excellent, good, fair, poor, first match wins: text containing both
`poor` and `excellent` scores 95, and `not good` scores 75 (substring
match). -/
theorem C10_corrosion_tier_order :
    (∀ v : String, strIn "excellent" (pyLower v) = true → classifyCorrosion v = 95) ∧
    (∀ v : String, strIn "excellent" (pyLower v) = false →
      strIn "good" (pyLower v) = true → classifyCorrosion v = 75) ∧
    (∀ v : String, strIn "excellent" (pyLower v) = false →
      strIn "good" (pyLower v) = false → strIn "fair" (pyLower v) = true →
      classifyCorrosion v = 50) ∧
    (∀ v : String, strIn "excellent" (pyLower v) = false →
      strIn "good" (pyLower v) = false → strIn "fair" (pyLower v) = false →
      strIn "poor" (pyLower v) = true → classifyCorrosion v = 25) ∧
    classifyCorrosion "Poor to Excellent" = 95 ∧
    classifyCorrosion "not good" = 75 := by
  refine ⟨?_, ?_, ?_, ?_, by decide, by decide⟩
  · intro v h1
    simp [classifyCorrosion, h1]
  · intro v h1 h2
    simp [classifyCorrosion, h1, h2]
  · intro v h1 h2 h3
    simp [classifyCorrosion, h1, h2, h3]
  · intro v h1 h2 h3 h4
    simp [classifyCorrosion, h1, h2, h3, h4]

/-- C10 witness: the tie-break evaluated on text containing both
`poor` and `excellent`. -/
theorem C10_witness : classifyCorrosion "Poor to Excellent" = 95 :=
  C10_corrosion_tier_order.1 "Poor to Excellent" (by decide)

/-! ### Facts about `generate_charts` -/

/-- On materials whose `properties` field is never `None`, a loop over
the mapping succeeds and computes the pure per-material map. -/
lemma mapProps_ok {α : Type} (f : Material → List (String × String) → α) :
    ∀ ms : List Material, (∀ m ∈ ms, m.properties ≠ PyField.null) →
      mapProps f ms = Except.ok (ms.map fun m => f m (propsOf m)) := by
  intro ms
  induction ms with
  | nil => intro _; rfl
  | cons m rest ih =>
    intro h
    have hm : m.properties ≠ PyField.null := h m (List.mem_cons_self m rest)
    have hr := ih fun x hx => h x (List.mem_cons_of_mem m hx)
    cases hp : m.properties with
    | absent => simp [mapProps, hp, PyField.get, hr, propsOf]
    | null => exact absurd hp hm
    | val l => simp [mapProps, hp, PyField.get, hr, propsOf]

lemma getD_map_of_lt {α β : Type} (f : α → β) (l : List α) (i : ℕ) (dβ : β) (dα : α)
    (h : i < l.length) : (l.map f).getD i dβ = f (l.getD i dα) := by
  rw [List.getD_eq_getElem?_getD, List.getD_eq_getElem?_getD, List.getElem?_map,
    List.getElem?_eq_getElem h]
  simp

lemma radarMaterials_length (ms : List Material) :
    (radarMaterials ms).length = ms.length := by
  simp [radarMaterials]

lemma radarMaterials_ne_empty (ms : List Material) (h1 : ms ≠ []) :
    (radarMaterials ms).isEmpty = false := by
  rcases Bool.eq_false_or_eq_true ((radarMaterials ms).isEmpty) with ht | hf
  · exfalso
    have h0 := List.isEmpty_iff.mp ht
    have hlen := radarMaterials_length ms
    rw [h0] at hlen
    cases ms with
    | nil => exact h1 rfl
    | cons a b => simp at hlen
  · exact hf

/-- On the non-raising path, `generate_charts` computes the pure chart
dictionary. -/
lemma generate_charts_ok (ms : List Material) (h1 : ms ≠ [])
    (h2 : ∀ m ∈ ms, m.properties ≠ PyField.null) :
    generate_charts ⟨PyField.val ms⟩ = Except.ok (chartsPure ms) := by
  cases ms with
  | nil => exact absurd rfl h1
  | cons m0 rest =>
    simp only [generate_charts, PyField.get,
      mapProps_ok (fun m props => (pyName m, extractNum props tensileKws)) (m0 :: rest) h2,
      mapProps_ok (fun m props => (pyName m, extractNum props densityKws)) (m0 :: rest) h2,
      mapProps_ok rowOf (m0 :: rest) h2]
    simp [chartsPure, tensileData, densityData, rowsOf, radarMaterials]

lemma any_pos_iff (ms : List Material) (kws : List String) :
    ((ms.map fun m => (pyName m, extractNum (propsOf m) kws)).any
        fun d => decide (0 < d.2)) = true ↔
      ∃ m ∈ ms, 0 < extractNum (propsOf m) kws := by
  rw [List.any_eq_true]
  constructor
  · rintro ⟨d, hd, hpos⟩
    rcases List.mem_map.mp hd with ⟨m, hm, rfl⟩
    exact ⟨m, hm, by simpa using hpos⟩
  · rintro ⟨m, hm, hpos⟩
    exact ⟨(pyName m, extractNum (propsOf m) kws), List.mem_map.mpr ⟨m, hm, rfl⟩,
      by simpa using hpos⟩

/-! ### Claims about `generate_charts` (C3, C4, C8) -/

/-- C3 (corrected): the claim says missing or null fields are
tolerated at every level, but only *missing* keys get defaults:
`m.get("properties", {})` returns `None` for a present-but-null
`properties` field, and the subsequent `props.items()` raises
`AttributeError` into the caller. -/
theorem C3_counterexample :
    generate_charts ⟨PyField.val [⟨PyField.absent, PyField.null⟩]⟩ =
      Except.error "AttributeError" := rfl

/-- C3 (amended): `generate_charts` tolerates absent fields at every
level (absent `matches` and a null or empty `matches` give the empty
dictionary, an absent `properties` behaves as an empty mapping, an
absent `name` becomes `"Unknown"`), and never raises when every
material's `properties` field is absent or an actual mapping; a
present-but-null `properties` field, however, raises. -/
theorem C3_generate_charts_tolerance :
    (∀ ms : List Material, (∀ m ∈ ms, m.properties ≠ PyField.null) →
      ∃ cs, generate_charts ⟨PyField.val ms⟩ = Except.ok cs) ∧
    generate_charts ⟨PyField.absent⟩ = Except.ok ⟨Option.none, Option.none, Option.none⟩ ∧
    generate_charts ⟨PyField.null⟩ = Except.ok ⟨Option.none, Option.none, Option.none⟩ ∧
    (∀ nm : PyField String,
      generate_charts ⟨PyField.val [⟨nm, PyField.absent⟩]⟩ =
        generate_charts ⟨PyField.val [⟨nm, PyField.val []⟩]⟩) ∧
    (∀ p : PyField (List (String × String)),
      pyName ⟨PyField.absent, p⟩ = Option.some "Unknown") := by
  refine ⟨?_, rfl, rfl, fun nm => rfl, fun p => rfl⟩
  intro ms hwf
  cases ms with
  | nil => exact ⟨⟨Option.none, Option.none, Option.none⟩, rfl⟩
  | cons m0 rest =>
    exact ⟨chartsPure (m0 :: rest),
      generate_charts_ok (m0 :: rest) (List.cons_ne_nil m0 rest) hwf⟩

/-- C3 witness: the tolerance statement evaluated on a one-material
list with a present properties mapping. -/
theorem C3_witness :
    ∃ cs, generate_charts ⟨PyField.val [⟨PyField.val "AISI 304",
      PyField.val [("Tensile Strength", "505 MPa")]⟩]⟩ = Except.ok cs :=
  C3_generate_charts_tolerance.1 _ (by decide)

/-- C4 (confirmed): on well-typed input each bar chart is emitted iff
some material's extracted value for that attribute is strictly
positive, the radar chart is emitted iff the matches list is
non-empty, and an empty matches list yields the empty dictionary
without raising. -/
theorem C4_chart_emission :
    (∀ ms : List Material, ms ≠ [] → (∀ m ∈ ms, m.properties ≠ PyField.null) →
      ∃ cs, generate_charts ⟨PyField.val ms⟩ = Except.ok cs ∧
        (cs.tensile.isSome ↔ ∃ m ∈ ms, 0 < extractNum (propsOf m) tensileKws) ∧
        (cs.density.isSome ↔ ∃ m ∈ ms, 0 < extractNum (propsOf m) densityKws) ∧
        cs.radar.isSome = true) ∧
    generate_charts ⟨PyField.val []⟩ = Except.ok ⟨Option.none, Option.none, Option.none⟩ := by
  constructor
  · intro ms h1 h2
    refine ⟨chartsPure ms, generate_charts_ok ms h1 h2, ?_, ?_, ?_⟩
    · rw [← any_pos_iff ms tensileKws]
      simp only [chartsPure]
      cases hb : ((tensileData ms).any fun d => decide (0 < d.2)) with
      | false => simp [tensileData] at hb ⊢; exact hb
      | true => simp [tensileData] at hb ⊢; exact hb
    · rw [← any_pos_iff ms densityKws]
      simp only [chartsPure]
      cases hb : ((densityData ms).any fun d => decide (0 < d.2)) with
      | false => simp [densityData] at hb ⊢; exact hb
      | true => simp [densityData] at hb ⊢; exact hb
    · simp [chartsPure, radarMaterials_ne_empty ms h1]
  · rfl

/-- C4 witness: the emission contract evaluated on the spec's
two-material example. -/
theorem C4_witness :
    ∃ cs, generate_charts ⟨PyField.val sampleMatches⟩ = Except.ok cs ∧
      (cs.tensile.isSome ↔ ∃ m ∈ sampleMatches, 0 < extractNum (propsOf m) tensileKws) ∧
      (cs.density.isSome ↔ ∃ m ∈ sampleMatches, 0 < extractNum (propsOf m) densityKws) ∧
      cs.radar.isSome = true :=
  C4_chart_emission.1 sampleMatches (by decide) (by decide)

lemma range_getD (n i : ℕ) (hi : i < n) : (List.range n).getD i 0 = i := by
  rw [List.getD_eq_getElem?_getD, List.getElem?_range hi]
  rfl

lemma rowsOf_length (ms : List Material) : (rowsOf ms).length = ms.length := by
  simp [rowsOf]

lemma radarMaterials_getD (ms : List Material) (i : ℕ) (hi : i < ms.length) :
    (radarMaterials ms).getD i (Option.none, []) =
      (((rowsOf ms).map Row.name).getD i Option.none,
       [(normalize ((rowsOf ms).map Row.strength) false).getD i 0,
        (normalize ((rowsOf ms).map Row.density) true).getD i 0,
        (normalize ((rowsOf ms).map Row.cost) true).getD i 0,
        ((rowsOf ms).map Row.corr).getD i 0,
        (normalize ((rowsOf ms).map Row.temp) false).getD i 0]) := by
  unfold radarMaterials
  rw [getD_map_of_lt _ (List.range ms.length) i _ 0 (by simpa using hi),
    range_getD ms.length i hi]

lemma closeList_getD3 (a b c d e : ℚ) : (closeList [a, b, c, d, e]).getD 3 0 = d := rfl

/-- The corrosion component of a radar trace is the raw corrosion
score of the corresponding material, with no rescaling. -/
lemma radar_trace_corr (ms : List Material) (i : ℕ) (hi : i < ms.length) :
    (((create_radar_chart (radarMaterials ms) radarAxes).1.traces.getD i
        (Option.none, [])).2).getD 3 0 =
      corrosionScore (propsOf (ms.getD i ⟨PyField.absent, PyField.absent⟩)) := by
  have htr : (create_radar_chart (radarMaterials ms) radarAxes).1.traces =
      (radarMaterials ms).map fun m => (m.1, closeList m.2) := rfl
  rw [htr, getD_map_of_lt _ (radarMaterials ms) i _ (Option.none, [])
      (by rw [radarMaterials_length]; exact hi),
    radarMaterials_getD ms i hi]
  show (closeList [_, _, _, _, _]).getD 3 0 = _
  rw [closeList_getD3]
  rw [getD_map_of_lt Row.corr (rowsOf ms) i 0 (rowOf ⟨PyField.absent, PyField.absent⟩ [])
      (by rw [rowsOf_length]; exact hi)]
  unfold rowsOf
  rw [getD_map_of_lt (fun m => rowOf m (propsOf m)) ms i _ ⟨PyField.absent, PyField.absent⟩ hi]
  rfl

/-- C8 (confirmed): the first corrosion-labelled value classifies to
95/75/50/25 by the tier substrings, with 50 as the default when no
corrosion label exists or no tier matches, and this score enters the
radar vector (fourth axis) without any rescaling. -/
theorem C8_corrosion_scores :
    (∀ (pre : List (String × String)) (k v : String) (post : List (String × String)),
      (∀ p ∈ pre, labelMatches p.1 ["corrosion"] = false) →
      labelMatches k ["corrosion"] = true →
      corrosionScore (pre ++ (k, v) :: post) = classifyCorrosion v) ∧
    (∀ props : List (String × String),
      (∀ p ∈ props, labelMatches p.1 ["corrosion"] = false) → corrosionScore props = 50) ∧
    (∀ v : String, strIn "excellent" (pyLower v) = false → strIn "good" (pyLower v) = false →
      strIn "fair" (pyLower v) = false → strIn "poor" (pyLower v) = false →
      classifyCorrosion v = 50) ∧
    classifyCorrosion "Excellent corrosion resistance" = 95 ∧
    classifyCorrosion "Good" = 75 ∧
    classifyCorrosion "Fair" = 50 ∧
    classifyCorrosion "Poor" = 25 ∧
    (∀ ms : List Material, ms ≠ [] → (∀ m ∈ ms, m.properties ≠ PyField.null) →
      ∀ i, i < ms.length →
        ∃ cs, generate_charts ⟨PyField.val ms⟩ = Except.ok cs ∧
          ∃ rc, cs.radar = Option.some rc ∧
            ((rc.traces.getD i (Option.none, [])).2).getD 3 0 =
              corrosionScore (propsOf (ms.getD i ⟨PyField.absent, PyField.absent⟩))) := by
  refine ⟨?_, ?_, ?_, by decide, by decide, by decide, by decide, ?_⟩
  · intro pre k v post h1 h2
    simp [corrosionScore, findMatch_append ["corrosion"] pre k v post h1 h2]
  · intro props h1
    simp [corrosionScore, findMatch_none ["corrosion"] props h1]
  · intro v h1 h2 h3 h4
    simp [classifyCorrosion, h1, h2, h3, h4]
  · intro ms h1 h2 i hi
    refine ⟨chartsPure ms, generate_charts_ok ms h1 h2,
      (create_radar_chart (radarMaterials ms) radarAxes).1, ?_, radar_trace_corr ms i hi⟩
    simp [chartsPure, radarMaterials_ne_empty ms h1]

/-- C8 witness: a material with no corrosion label defaults to 50. -/
theorem C8_witness : corrosionScore [("Density", "8 g/cm3")] = 50 :=
  C8_corrosion_scores.2.1 [("Density", "8 g/cm3")] (by decide)

/-! ### Claims about the renderers (C9) -/

/-- C9 (corrected): the claim says both renderers are pure and that
`create_radar_chart` leaves each material's values list unchanged; in
fact `values += values[:1]` extends the caller's list in place, so the
post-call state of the input differs from the input. -/
theorem C9_counterexample :
    (create_radar_chart [(Option.some "A", [1, 2])] ["x", "y"]).2 ≠
      [(Option.some "A", [1, 2])] := by
  decide

/-- C9 (amended): `create_bar_chart` computes its chart from its input
without modifying it; `create_radar_chart` computes its traces
deterministically from its input but extends each values list in
place by its own first element (the closed-loop copy), so the caller's
lists are mutated and a second call on the mutated state closes the
already-closed lists again. -/
theorem C9_renderer_state :
    (∀ (data : List (Option String × ℚ)) (t y c : String),
      (create_bar_chart data t y c).2 = data ∧
      (create_bar_chart data t y c).1.labels = data.map Prod.fst ∧
      (create_bar_chart data t y c).1.values = data.map Prod.snd) ∧
    (∀ (ms : List (Option String × List ℚ)) (attrs : List String),
      (create_radar_chart ms attrs).2 = ms.map (fun m => (m.1, closeList m.2)) ∧
      (create_radar_chart ms attrs).1.traces = ms.map (fun m => (m.1, closeList m.2)) ∧
      (create_radar_chart (create_radar_chart ms attrs).2 attrs).1.traces =
        ms.map fun m => (m.1, closeList (closeList m.2))) := by
  refine ⟨fun data t y c => ⟨rfl, rfl, rfl⟩, fun ms attrs => ⟨rfl, rfl, ?_⟩⟩
  simp [create_radar_chart, closeList, List.map_map, Function.comp]

example : parse_value (PyVal.str "450 MPa") = 450 := by decide
example : parse_value (PyVal.str "N/A") = 0 := by decide
example : parse_value (PyVal.str "8.0 g/cm3") = 8 := by
  have h : firstRun "8.0 g/cm3".data = Option.some ['8', '.', '0'] := by decide
  rw [parse_value, if_neg (by decide), h]
  simp +decide [floatOfRun, digitsVal]
example : parse_value (PyVal.str "approx. 450 MPa") = 0 := by decide
example : parse_value (PyVal.str "1.2.3") = 0 := by decide
example : normalize [50, 100] false = [50, 100] := by norm_num [normalize, pymax]
example : normalize [50, 100] true = [50, 0] := by norm_num [normalize, pymax]
example : normalize [0, 0, 0] true = [100, 100, 100] := by norm_num [normalize, pymax]
example : classifyCorrosion "Excellent corrosion resistance" = 95 := by decide
example : corrosionScore [("Corrosion Resistance", "Poor")] = 25 := by decide
example : extractNum [("Density", "7.8"), ("Tensile Strength", "500 MPa")] ["tensile", "strength"] = 500 := by decide

end MaterialCharts
